import Mathlib

/-!
Verification of the schema-normalization / filtering / aggregation core of
`streamlit_app.py` (Competitor Team Dashboard).

A pandas DataFrame is modelled as a list of column names together with a list
of rows, each row a positional list of cell values.  A cell value is a string,
an integer, or the missing-value sentinel (pandas `NaN`/`NA`), mirroring the
"string | number | null" cell model the app works with after CSV parsing.
-/

namespace Dashboard

/-- Cell values of the tabular dataset: a string, a number (years are held as
integers throughout the app's logic), or the missing-value sentinel. -/
inductive Value where
  | str : String → Value
  | num : Int → Value
  | null : Value
deriving DecidableEq, Repr

/-- Python `str(v)` / pandas `.astype(str)` on a cell: a string renders as
itself, a number by its decimal notation, and the float `NaN` sentinel renders
as the string "nan" (as `astype(str)` does on a `NaN` entry). -/
def pyStr : Value → String
  | Value.str s => s
  | Value.num n => toString n
  | Value.null => "nan"

/-- Python `.strip()` / pandas `.str.strip()`: drop leading and trailing
whitespace (implemented over the character list so that evaluation is pure
structural recursion). -/
def pyStrip (s : String) : String :=
  ⟨((s.data.dropWhile Char.isWhitespace).reverse.dropWhile Char.isWhitespace).reverse⟩

/-- Accumulator loop reading decimal digits; fails on any non-digit. -/
def digitsAux : List Char → Nat → Option Nat
  | [], acc => some acc
  | c :: t, acc => if c.isDigit then digitsAux t (acc * 10 + (c.toNat - 48)) else none

/-- Natural number denoted by a nonempty list of decimal digits. -/
def digitsToNat? (l : List Char) : Option Nat :=
  if l.isEmpty then none else digitsAux l 0

/-- Integer parsing of a string: an optional sign followed by decimal digits,
the numeric grammar `pd.to_numeric` accepts for integer cells. -/
def parseInt? (s : String) : Option Int :=
  match s.data with
  | Char.ofNat 45 :: rest => (digitsToNat? rest).map (fun n => -(n : Int))
  | Char.ofNat 43 :: rest => (digitsToNat? rest).map (fun n => (n : Int))
  | l => (digitsToNat? l).map (fun n => (n : Int))

/-- Comparison used by Python `sorted` on the option values, extended to a
total order on all cells: on two strings it is the natural string order, on
two numbers the natural integer order (mixed-type columns never reach
`sorted` in the app's data model). -/
def vle : Value → Value → Bool
  | Value.null, _ => true
  | Value.str _, Value.null => false
  | Value.num _, Value.null => false
  | Value.num a, Value.num b => decide (a ≤ b)
  | Value.num _, Value.str _ => true
  | Value.str _, Value.num _ => false
  | Value.str a, Value.str b => decide (a ≤ b)

/-- Lexicographic extension of `vle` to group-key tuples. -/
def vleList : List Value → List Value → Bool
  | [], _ => true
  | _ :: _, [] => false
  | a :: as, b :: bs => if a = b then vleList as bs else vle a b

/-- DataFrame: column names plus rows of cells, positionally aligned. -/
structure Frame where
  cols : List String
  rows : List (List Value)
deriving DecidableEq, Repr

/-- Index of a column name in a column list (first occurrence). -/
def colIdx : List String → String → Option Nat
  | [], _ => none
  | c :: t, x => if c = x then some 0 else (colIdx t x).map (· + 1)

/-- Cell of a row at a named column; missing column or short row reads as the
missing-value sentinel. -/
def getCell (cols : List String) (row : List Value) (c : String) : Value :=
  match colIdx cols c with
  | some i => row.getD i Value.null
  | none => Value.null

/-- Rectangularity: every row has exactly one cell per column, as rows parsed
from a CSV do. -/
def Wf (f : Frame) : Prop := ∀ r ∈ f.rows, r.length = f.cols.length

instance (f : Frame) : Decidable (Wf f) := by
  unfold Wf; infer_instance

/-! ## Schema Normalizer (`expected_cols_defaults`, lines 28-51) -/

/-- Expected columns and safe defaults if missing (lines 28-43 of the app). -/
def expected_cols_defaults : List (String × Value) :=
  [("Firm Name", Value.str "Unknown Firm"),
   ("Name", Value.str "Unknown Name"),
   ("Title", Value.str ""),
   ("Harmonized title", Value.str "Other"),
   ("Year Joined", Value.null),
   ("Current Office", Value.str "Unknown Office"),
   ("Team Associated", Value.str ""),
   ("Harmonized team", Value.str "Other"),
   ("Investment sub-team / Area of focus", Value.str ""),
   ("Harmonized sub-team", Value.str "Other"),
   ("Prior Experience", Value.str ""),
   ("Masters Degree", Value.str ""),
   ("Undergraduate", Value.str ""),
   ("Committee memberships", Value.str "")]

/-- `df[c] = d` for a c absent from the frame: append the column, giving every
row the default value. -/
def addCol (f : Frame) (c : String) (d : Value) : Frame :=
  { cols := f.cols ++ [c], rows := f.rows.map (· ++ [d]) }

/-- The backfill loop of lines 46-48: for each expected column in order, add
it with its default when the frame does not already have it. -/
def addCols : List (String × Value) → Frame → Frame
  | [], f => f
  | (c, d) :: t, f => addCols t (if c ∈ f.cols then f else addCol f c d)

/-- `pd.to_numeric(v, errors="coerce")` on one cell: numbers pass through,
numeric strings parse, anything unparseable (and the missing sentinel)
becomes the missing sentinel. -/
def to_numeric : Value → Value
  | Value.num n => Value.num n
  | Value.null => Value.null
  | Value.str s =>
    match parseInt? (pyStrip s) with
    | some n => Value.num n
    | none => Value.null

/-- `df[c] = g(df[c])`: rewrite the cells of one named column in place. -/
def setCol (f : Frame) (c : String) (g : Value → Value) : Frame :=
  match colIdx f.cols c with
  | some i => { cols := f.cols, rows := f.rows.map (fun r => r.set i (g (r.getD i Value.null))) }
  | none => f

/-- Schema Normalizer: backfill missing expected columns with their defaults
(lines 46-48), then coerce `Year Joined` to numeric (line 51). -/
def normalize (f : Frame) : Frame :=
  setCol (addCols expected_cols_defaults f) "Year Joined" to_numeric

/-! ## Option Resolver (`unique_options`, lines 54-59) -/

/-- Distinct values keeping first occurrences, as `Series.unique` does. -/
def uniq : List Value → List Value
  | [] => []
  | v :: t => v :: (uniq t).filter (fun w => w ≠ v)

/-- The comparison `vle` as a relation, for sorting. -/
def vleR (a b : Value) : Prop := vle a b = true

instance : DecidableRel vleR := fun a b => inferInstanceAs (Decidable (vle a b = true))

instance : IsTotal Value vleR where
  total a b := by
    rcases a with s | n | _ <;> rcases b with s2 | n2 | _ <;> simp [vleR, vle]
    · exact le_total _ _
    · omega

instance : IsTrans Value vleR where
  trans a b c := by
    rcases a with s | n | _ <;> rcases b with s2 | n2 | _ <;> rcases c with s3 | n3 | _ <;>
      simp [vleR, vle]
    · exact fun h h2 => le_trans h h2
    · omega

/-- Python `sorted` on a list of cell values: a stable sort ascending by
`vle`. -/
def pySorted (l : List Value) : List Value := List.insertionSort vleR l

/-- Helper to get unique sorted options or a fallback (lines 54-59):
drop missing values, keep one copy of each distinct value, drop values whose
string form is blank after stripping; when nothing remains return the
fallback (as a one-element list) when one was supplied, else the empty list;
otherwise return the qualifying values sorted ascending. -/
def unique_options (series : List Value) (fallback : Option Value) : List Value :=
  let vals := uniq (series.filter (fun v => v ≠ Value.null))
  let vals := vals.filter (fun v => pyStrip (pyStr v) ≠ "")
  if vals.isEmpty then
    match fallback with
    | some fb => [fb]
    | none => []
  else pySorted vals

/-! ## Filter Engine (lines 84-94) -/

/-- User-side filter state: selected firm values, selected office values, and
the year slider interval (absent exactly when the dataset has no valid year
data, lines 70-81). -/
structure FilterSpec where
  selected_firms : List Value
  selected_offices : List Value
  year_range : Option (Int × Int)
deriving DecidableEq, Repr

/-- Keep the rows satisfying a predicate (a boolean-mask row selection). -/
def filterRows (f : Frame) (p : List Value → Bool) : Frame :=
  { cols := f.cols, rows := f.rows.filter p }

/-- One categorical stage: `if selected: df = df[df[c].isin(selected)]`.
An empty selection list is falsy in Python, so it leaves the frame untouched. -/
def catStage (f : Frame) (c : String) (sel : List Value) : Frame :=
  if sel.isEmpty then f else filterRows f (fun r => sel.contains (getCell f.cols r c))

/-- `df["Year Joined"].notna()` on one row. -/
def yearNotna (cols : List String) (r : List Value) : Bool :=
  getCell cols r "Year Joined" ≠ Value.null

/-- `df["Year Joined"].between(lo, hi)` on one row: inclusive bounds, false on
the missing sentinel. -/
def yearBetween (cols : List String) (lo hi : Int) (r : List Value) : Bool :=
  match getCell cols r "Year Joined" with
  | Value.num n => decide (lo ≤ n) && decide (n ≤ hi)
  | _ => false

/-- The numeric-range stage (lines 89-94): active only when a year interval
exists; keeps rows whose `Year Joined` is present and within the inclusive
bounds. -/
def rangeStage (f : Frame) (yr : Option (Int × Int)) : Frame :=
  match yr with
  | none => f
  | some (lo, hi) => filterRows f (fun r => yearNotna f.cols r && yearBetween f.cols lo hi r)

/-- Filter Engine (lines 84-94): firm membership, then office membership,
then the year range. -/
def filtered_df (f : Frame) (spec : FilterSpec) : Frame :=
  rangeStage (catStage (catStage f "Firm Name" spec.selected_firms)
      "Current Office" spec.selected_offices) spec.year_range

/-! ## Plottability Guard (`can_plot_column`, lines 114-115) -/

/-- Cells of one named column, in row order. -/
def colValues (f : Frame) (c : String) : List Value :=
  f.rows.map (fun r => getCell f.cols r c)

/-- `can_plot_column` (lines 114-115): the column exists, its non-missing part
is nonempty, and some cell's `astype(str)` form is non-blank after stripping
(the missing sentinel's string form being "nan"). -/
def can_plot_column (f : Frame) (c : String) : Bool :=
  f.cols.contains c
    && !((colValues f c).filter (fun v => v ≠ Value.null)).isEmpty
    && (colValues f c).any (fun v => pyStrip (pyStr v) ≠ "")

/-! ## Aggregation Engine (`groupby(...)[count col].count()`, lines 133-134 and 142-144) -/

/-- Group-key tuple of a row over the grouping columns. -/
def groupKey (cols : List String) (gcols : List String) (r : List Value) : List Value :=
  gcols.map (getCell cols r)

/-- Pandas `groupby` drops groups whose key contains a missing value. -/
def keyOk (key : List Value) : Bool := key.all (fun v => v ≠ Value.null)

/-- Distinct key tuples keeping first occurrences. -/
def uniqKeys : List (List Value) → List (List Value)
  | [] => []
  | k :: t => k :: (uniqKeys t).filter (fun k2 => k2 ≠ k)

/-- The lexicographic comparison `vleList` as a relation, for sorting. -/
def vleListR (a b : List Value) : Prop := vleList a b = true

instance : DecidableRel vleListR := fun a b => inferInstanceAs (Decidable (vleList a b = true))

/-- Sorting of the distinct group keys, as `groupby` presents groups sorted. -/
def sortKeys (l : List (List Value)) : List (List Value) := List.insertionSort vleListR l

/-- `df.groupby(gcols)[countCol].count()`: rows with a fully non-missing key
tuple are grouped by that tuple; each group reports the number of its rows
whose `countCol` cell is non-missing.  Result: (key tuple, count) pairs, keys
distinct and sorted. -/
def aggregate (f : Frame) (gcols : List String) (countCol : String) : List (List Value × Nat) :=
  let rowsOk := f.rows.filter (fun r => keyOk (groupKey f.cols gcols r))
  let keys := sortKeys (uniqKeys (rowsOk.map (groupKey f.cols gcols)))
  keys.map (fun k =>
    (k, ((rowsOk.filter (fun r => groupKey f.cols gcols r = k)).filter
        (fun r => getCell f.cols r countCol ≠ Value.null)).length))

/-- Team Size by Firm (lines 133-134): counts of `Name` grouped by firm. -/
def team_size (f : Frame) : List (List Value × Nat) :=
  aggregate f ["Firm Name"] "Name"

/-! ## KPI derivations (lines 100-105) -/

/-- `filtered_df["Year Joined"].dropna()` as integers, in row order. -/
def yearsNonnull (f : Frame) : List Int :=
  f.rows.filterMap (fun r =>
    match getCell f.cols r "Year Joined" with
    | Value.num n => some n
    | _ => none)

/-- `filtered_df["Year Joined"].dropna().mean()` (line 102): the sum of the
non-missing years over their count, as an exact rational; `none` models the
`NaN` a mean of an empty series produces. -/
def avg_year_val (f : Frame) : Option ℚ :=
  let ys := yearsNonnull f
  if ys.isEmpty then none
  else some (mkRat ys.sum ys.length)

/-- Python `int()` on a rational: truncation toward zero (the quotient of the
reduced numerator by the denominator under T-division). -/
def pyInt (q : ℚ) : Int := q.num.tdiv (q.den : Int)

/-- The displayed Avg. Year Joined KPI (line 103): the truncated mean as a
string, or "N/A" when no year data remains. -/
def avg_year (f : Frame) : String :=
  match avg_year_val f with
  | some q => toString (pyInt q)
  | none => "N/A"

/-- Concrete one-row view for exercising the aggregation: its `Name` cell is
missing (the raw CSV held the column with an empty entry). -/
def c4view : Frame :=
  normalize (Frame.mk ["Firm Name", "Name"] [[Value.str "A", Value.null]])

/-- The spec's test scenario: 3 rows, firms A, A, B, years 2020, 2021 and
missing, normalized. -/
def scenario_df : Frame :=
  normalize (Frame.mk ["Firm Name", "Name", "Year Joined"]
    [[Value.str "A", Value.str "n1", Value.num 2020],
     [Value.str "A", Value.str "n2", Value.num 2021],
     [Value.str "B", Value.str "n3", Value.null]])

/-- The scenario's filter: firms {A}, no office constraint, and the app's
default full-span year slider (2020, 2021). -/
def scenario_spec : FilterSpec :=
  FilterSpec.mk [Value.str "A"] [] (some (2020, 2021))

/-- Conjunction of the three filter stages as a single row predicate: the
firm membership test (vacuous on an empty selection), the office membership
test (vacuous on an empty selection), and the year-range test (vacuous when
no range is active). -/
def passes (cols : List String) (spec : FilterSpec) (r : List Value) : Bool :=
  (spec.selected_firms.isEmpty || spec.selected_firms.contains (getCell cols r "Firm Name"))
    && (spec.selected_offices.isEmpty
      || spec.selected_offices.contains (getCell cols r "Current Office"))
    && (match spec.year_range with
        | none => true
        | some (lo, hi) => yearNotna cols r && yearBetween cols lo hi r)

/-! ## A column holding one constant value across all rows -/

/-- The frame has column `c` and every row reads `d` there. -/
def ColIs (f : Frame) (c : String) (d : Value) : Prop :=
  c ∈ f.cols ∧ ∀ r ∈ f.rows, getCell f.cols r c = d

/-! ## Basic lemmas about column lookup -/

theorem colIdx_eq_none (cols : List String) (c : String) :
    colIdx cols c = none ↔ c ∉ cols := by
  induction cols with
  | nil => simp [colIdx]
  | cons hd t ih =>
    by_cases h : hd = c
    · simp [colIdx, h]
    · simp [colIdx, h, Option.map_eq_none, ih, Ne.symm h]

theorem colIdx_isSome_of_mem {cols : List String} {c : String} (h : c ∈ cols) :
    ∃ i, colIdx cols c = some i := by
  rcases he : colIdx cols c with _ | i
  · exact absurd ((colIdx_eq_none cols c).mp he) (by simp [h])
  · exact ⟨i, rfl⟩

theorem colIdx_lt_length {cols : List String} {c : String} {i : Nat}
    (h : colIdx cols c = some i) : i < cols.length := by
  induction cols generalizing i with
  | nil => simp [colIdx] at h
  | cons hd t ih =>
    by_cases hc : hd = c
    · simp [colIdx, hc] at h
      simp
      omega
    · simp [colIdx, hc] at h
      rcases h with ⟨j, hj, rfl⟩
      have := ih hj
      simp
      omega

theorem colIdx_get {cols : List String} {c : String} {i : Nat}
    (h : colIdx cols c = some i) (hlt : i < cols.length) :
    cols.get ⟨i, hlt⟩ = c := by
  induction cols generalizing i with
  | nil => simp [colIdx] at h
  | cons hd t ih =>
    by_cases hc : hd = c
    · simp [colIdx, hc] at h
      subst h
      simpa using hc
    · simp [colIdx, hc] at h
      rcases h with ⟨j, hj, rfl⟩
      simpa using ih hj (by simpa using Nat.lt_of_succ_lt_succ (by simpa using hlt))

theorem colIdx_inj {cols : List String} {c c' : String} {i : Nat}
    (h : colIdx cols c = some i) (h' : colIdx cols c' = some i) : c = c' := by
  have hlt := colIdx_lt_length h
  rw [← colIdx_get h hlt, ← colIdx_get h' hlt]

theorem colIdx_append_left {cols : List String} {c : String} {i : Nat}
    (h : colIdx cols c = some i) (l : List String) :
    colIdx (cols ++ l) c = some i := by
  induction cols generalizing i with
  | nil => simp [colIdx] at h
  | cons hd t ih =>
    by_cases hc : hd = c
    · simp [colIdx, hc] at h ⊢
      exact h
    · simp [colIdx, hc] at h ⊢
      rcases h with ⟨j, hj, rfl⟩
      exact ⟨j, ih hj, rfl⟩

theorem colIdx_append_new {cols : List String} {c : String}
    (h : c ∉ cols) : colIdx (cols ++ [c]) c = some cols.length := by
  induction cols with
  | nil => simp [colIdx]
  | cons hd t ih =>
    have hc : hd ≠ c := fun he => h (by simp [he])
    simp [colIdx, hc, ih (fun ht => h (by simp [ht]))]

/-- Reading an existing column is unaffected by appending a fresh column. -/
theorem getCell_append_old {cols : List String} {c : String} (hmem : c ∈ cols)
    {row : List Value} (hlen : row.length = cols.length) (c' : String) (d : Value) :
    getCell (cols ++ [c']) (row ++ [d]) c = getCell cols row c := by
  rcases colIdx_isSome_of_mem hmem with ⟨i, hi⟩
  have hlt : i < cols.length := colIdx_lt_length hi
  rw [getCell, getCell, hi, colIdx_append_left hi]
  simp [List.getD, List.getElem?_append_left (by omega : i < row.length)]

/-- Reading a freshly appended column yields the appended default. -/
theorem getCell_append_new {cols : List String} {c : String} (hmem : c ∉ cols)
    {row : List Value} (hlen : row.length = cols.length) (d : Value) :
    getCell (cols ++ [c]) (row ++ [d]) c = d := by
  rw [getCell, colIdx_append_new hmem, ← hlen]
  simp [List.getD, List.getElem?_append_right (Nat.le_refl _)]

/-! ## Well-formedness transport -/

theorem Wf_addCol {f : Frame} (h : Wf f) (c : String) (d : Value) :
    Wf (addCol f c d) := by
  intro r hr
  simp [addCol] at hr ⊢
  rcases hr with ⟨r0, hr0, rfl⟩
  simp [h r0 hr0]

theorem Wf_addCols {l : List (String × Value)} {f : Frame} (h : Wf f) :
    Wf (addCols l f) := by
  induction l generalizing f with
  | nil => exact h
  | cons hd t ih =>
    rcases hd with ⟨c, d⟩
    by_cases hc : c ∈ f.cols
    · simpa [addCols, hc] using ih h
    · simpa [addCols, hc] using ih (Wf_addCol h c d)

theorem Wf_setCol {f : Frame} (h : Wf f) (c : String) (g : Value → Value) :
    Wf (setCol f c g) := by
  rw [setCol]
  rcases he : colIdx f.cols c with _ | i
  · exact h
  · intro r hr
    simp at hr
    rcases hr with ⟨r0, hr0, rfl⟩
    simp only [List.length_set]
    exact h r0 hr0

/-! ## Columns present after backfilling -/

theorem mem_cols_addCol (f : Frame) (c c' : String) (d : Value) (h : c ∈ f.cols) :
    c ∈ (addCol f c' d).cols := by
  simp [addCol, h]

theorem mem_cols_addCols (l : List (String × Value)) :
    ∀ (f : Frame) (c : String), c ∈ f.cols → c ∈ (addCols l f).cols := by
  induction l with
  | nil => intro f c h; exact h
  | cons hd t ih =>
    intro f c h
    rcases hd with ⟨c1, d1⟩
    by_cases hc : c1 ∈ f.cols
    · rw [addCols, if_pos hc]
      exact ih f c h
    · rw [addCols, if_neg hc]
      exact ih _ c (mem_cols_addCol f c c1 d1 h)

theorem mem_cols_addCols_of_mem (l : List (String × Value)) :
    ∀ (f : Frame) (c : String) (d : Value), (c, d) ∈ l → c ∈ (addCols l f).cols := by
  induction l with
  | nil => intro f c d h; simp at h
  | cons hd t ih =>
    intro f c d h
    rcases hd with ⟨c1, d1⟩
    rcases List.mem_cons.mp h with he | ht
    · have hc1 : c1 = c := by
        have := congrArg Prod.fst he
        exact this.symm
      subst hc1
      by_cases hc : c1 ∈ f.cols
      · rw [addCols, if_pos hc]
        exact mem_cols_addCols t f c1 hc
      · rw [addCols, if_neg hc]
        exact mem_cols_addCols t _ c1 (by simp [addCol])
    · by_cases hc : c1 ∈ f.cols
      · rw [addCols, if_pos hc]
        exact ih f c d ht
      · rw [addCols, if_neg hc]
        exact ih _ c d ht

theorem cols_setCol (f : Frame) (c : String) (g : Value → Value) :
    (setCol f c g).cols = f.cols := by
  rw [setCol]
  rcases colIdx f.cols c with _ | i <;> rfl

theorem colIs_addCol {f : Frame} {c : String} {d : Value} (hwf : Wf f)
    (h : ColIs f c d) (c' : String) (d' : Value) : ColIs (addCol f c' d') c d := by
  refine ⟨mem_cols_addCol f c c' d' h.1, ?_⟩
  intro r hr
  simp only [addCol, List.mem_map] at hr
  rcases hr with ⟨r0, hr0, rfl⟩
  rw [show (addCol f c' d').cols = f.cols ++ [c'] from rfl] at *
  rw [getCell_append_old h.1 (hwf r0 hr0) c' d']
  exact h.2 r0 hr0

theorem colIs_addCol_new {f : Frame} {c : String} (hwf : Wf f)
    (h : c ∉ f.cols) (d : Value) : ColIs (addCol f c d) c d := by
  refine ⟨by simp [addCol], ?_⟩
  intro r hr
  simp only [addCol, List.mem_map] at hr
  rcases hr with ⟨r0, hr0, rfl⟩
  exact getCell_append_new h (hwf r0 hr0) d

theorem colIs_addCols (l : List (String × Value)) :
    ∀ (f : Frame) (c : String) (d : Value), Wf f → ColIs f c d → ColIs (addCols l f) c d := by
  induction l with
  | nil => intro f c d _ h; exact h
  | cons hd t ih =>
    intro f c d hwf h
    rcases hd with ⟨c1, d1⟩
    by_cases hc : c1 ∈ f.cols
    · rw [addCols, if_pos hc]
      exact ih f c d hwf h
    · rw [addCols, if_neg hc]
      exact ih _ c d (Wf_addCol hwf c1 d1) (colIs_addCol hwf h c1 d1)

/-- The backfill loop establishes the default in a column the raw frame
lacked, provided the expected-column names are distinct. -/
theorem colIs_addCols_of_missing (l : List (String × Value)) :
    ∀ (f : Frame) (c : String) (d : Value), (l.map Prod.fst).Nodup → (c, d) ∈ l →
      c ∉ f.cols → Wf f → ColIs (addCols l f) c d := by
  induction l with
  | nil => intro f c d _ h; simp at h
  | cons hd t ih =>
    intro f c d hnd hcd hout hwf
    rcases hd with ⟨c1, d1⟩
    rcases List.mem_cons.mp hcd with he | ht
    · have hc1 : c1 = c := (congrArg Prod.fst he).symm
      have hd1 : d1 = d := (congrArg Prod.snd he).symm
      subst hc1; subst hd1
      rw [addCols, if_neg hout]
      exact colIs_addCols t _ c1 d1 (Wf_addCol hwf c1 d1) (colIs_addCol_new hwf hout d1)
    · have hc1c : c1 ≠ c := by
        intro he1
        have : c1 ∈ t.map Prod.fst := by
          subst he1
          exact List.mem_map.mpr ⟨(c1, d), ht, rfl⟩
        exact (List.nodup_cons.mp (by simpa using hnd)).1 this
      have hnd' : (t.map Prod.fst).Nodup := (List.nodup_cons.mp (by simpa using hnd)).2
      by_cases hc : c1 ∈ f.cols
      · rw [addCols, if_pos hc]
        exact ih f c d hnd' ht hout hwf
      · rw [addCols, if_neg hc]
        refine ih _ c d hnd' ht ?_ (Wf_addCol hwf c1 d1)
        simp [addCol, hout]
        exact fun he => hc1c he.symm

/-! ## Reading cells through `setCol` -/

theorem getCell_set_ne {cols : List String} {c cy : String} {iy : Nat}
    (hy : colIdx cols cy = some iy) (hne : c ≠ cy) (r : List Value) (v : Value) :
    getCell cols (r.set iy v) c = getCell cols r c := by
  rw [getCell, getCell]
  rcases hc : colIdx cols c with _ | ic
  · rfl
  · have : ic ≠ iy := fun he => hne (colIdx_inj (he ▸ hc) hy)
    simp [List.getD, List.getElem?_set_ne (Ne.symm this)]

theorem getCell_set_self {cols : List String} {cy : String} {iy : Nat}
    (hy : colIdx cols cy = some iy) {r : List Value} (hlen : r.length = cols.length)
    (v : Value) : getCell cols (r.set iy v) cy = v := by
  have hlt : iy < r.length := by
    have := colIdx_lt_length hy
    omega
  rw [getCell, hy]
  simp [List.getD, List.getElem?_set_self, hlt]

/-- A constant column survives the in-place rewrite of (possibly another)
column, provided the rewrite fixes the constant when the columns coincide. -/
theorem colIs_setCol {f : Frame} {c : String} {d : Value} (hwf : Wf f)
    (h : ColIs f c d) (cy : String) (g : Value → Value) (hfix : c = cy → g d = d) :
    ColIs (setCol f cy g) c d := by
  rcases hy : colIdx f.cols cy with _ | iy
  · rw [setCol, hy]
    exact h
  · constructor
    · rw [cols_setCol]
      exact h.1
    · intro r hr
      rw [cols_setCol]
      rw [setCol, hy] at hr
      simp only [List.mem_map] at hr
      rcases hr with ⟨r0, hr0, rfl⟩
      by_cases hcc : c = cy
      · subst hcc
        rw [getCell_set_self hy (hwf r0 hr0)]
        have hold : r0.getD iy Value.null = d := by
          have := h.2 r0 hr0
          rw [getCell, hy] at this
          exact this
        rw [hold, hfix rfl]
      · rw [getCell_set_ne hy hcc]
        exact h.2 r0 hr0

/-- Every cell of the rewritten column is the image of some old cell. -/
theorem setCol_cell_image {f : Frame} {cy : String} (hwf : Wf f)
    (hmem : cy ∈ f.cols) (g : Value → Value) :
    ∀ r ∈ (setCol f cy g).rows, ∃ v, getCell (setCol f cy g).cols r cy = g v := by
  rcases colIdx_isSome_of_mem hmem with ⟨iy, hy⟩
  intro r hr
  rw [setCol, hy] at hr ⊢
  simp only [List.mem_map] at hr
  rcases hr with ⟨r0, hr0, rfl⟩
  exact ⟨r0.getD iy Value.null, getCell_set_self hy (hwf r0 hr0) _⟩

/-! ## Claim C5 -/

/-- C5: for every rectangular raw input dataset and every expected
Field-Schema field absent from the raw schema, the normalized dataset has the
field in its schema and every record reads the field's declared default there
(for `Year Joined` the declared default is the missing sentinel, which the
numeric coercion fixes). -/
theorem C5_missing_field_default (f : Frame) (c : String) (d : Value)
    (hwf : Wf f) (hcd : (c, d) ∈ expected_cols_defaults) (hout : c ∉ f.cols) :
    c ∈ (normalize f).cols ∧
      ∀ r ∈ (normalize f).rows, getCell (normalize f).cols r c = d := by
  have hnd : (expected_cols_defaults.map Prod.fst).Nodup := by decide
  have h1 : ColIs (addCols expected_cols_defaults f) c d :=
    colIs_addCols_of_missing _ f c d hnd hcd hout hwf
  have hwf1 : Wf (addCols expected_cols_defaults f) := Wf_addCols hwf
  have hfix : c = "Year Joined" → to_numeric d = d := by
    intro hc
    have hnull : ∀ p ∈ expected_cols_defaults, p.1 = "Year Joined" → p.2 = Value.null := by
      decide
    have : d = Value.null := hnull (c, d) hcd hc
    subst this
    rfl
  exact colIs_setCol hwf1 h1 "Year Joined" to_numeric hfix

/-- Witness for C5 at a one-row raw dataset lacking the `Firm Name` column. -/
theorem C5_missing_field_default_witness :
    Wf (Frame.mk ["Name"] [[Value.str "x"]]) ∧
    ("Firm Name", Value.str "Unknown Firm") ∈ expected_cols_defaults ∧
    "Firm Name" ∉ (Frame.mk ["Name"] [[Value.str "x"]]).cols ∧
    ("Firm Name" ∈ (normalize (Frame.mk ["Name"] [[Value.str "x"]])).cols ∧
      ∀ r ∈ (normalize (Frame.mk ["Name"] [[Value.str "x"]])).rows,
        getCell (normalize (Frame.mk ["Name"] [[Value.str "x"]])).cols r "Firm Name" =
          Value.str "Unknown Firm") :=
  ⟨by decide, by decide, by decide,
    C5_missing_field_default (Frame.mk ["Name"] [[Value.str "x"]]) "Firm Name"
      (Value.str "Unknown Firm") (by decide) (by decide) (by decide)⟩

/-! ## Claim C6 -/

/-- Coercion always produces an integer or the missing sentinel. -/
theorem to_numeric_range (v : Value) :
    (∃ n, to_numeric v = Value.num n) ∨ to_numeric v = Value.null := by
  rcases v with s | n | _
  · rcases h : parseInt? (pyStrip s) with _ | n
    · right; simp [to_numeric, h]
    · left; exact ⟨n, by simp [to_numeric, h]⟩
  · exact Or.inl ⟨n, rfl⟩
  · exact Or.inr rfl

/-- C6: the `Year Joined` coercion is total: on every rectangular raw input,
every normalized record's `Year Joined` is an integer or the missing
sentinel — never a non-numeric string; a string cell parses to its integer
value exactly when numeric parsing succeeds and collapses to the missing
sentinel otherwise. -/
theorem C6_year_coercion_total (f : Frame) (hwf : Wf f) :
    (∀ r ∈ (normalize f).rows,
        (∃ n, getCell (normalize f).cols r "Year Joined" = Value.num n) ∨
          getCell (normalize f).cols r "Year Joined" = Value.null) ∧
    (∀ s n, parseInt? (pyStrip s) = some n → to_numeric (Value.str s) = Value.num n) ∧
    (∀ s, parseInt? (pyStrip s) = none → to_numeric (Value.str s) = Value.null) := by
  refine ⟨?_, fun s n h => by simp [to_numeric, h], fun s h => by simp [to_numeric, h]⟩
  intro r hr
  have hmem : "Year Joined" ∈ (addCols expected_cols_defaults f).cols :=
    mem_cols_addCols_of_mem expected_cols_defaults f "Year Joined" Value.null (by decide)
  have hwf1 : Wf (addCols expected_cols_defaults f) := Wf_addCols hwf
  rcases setCol_cell_image hwf1 hmem to_numeric r hr with ⟨v, hv⟩
  rw [show normalize f = setCol (addCols expected_cols_defaults f) "Year Joined" to_numeric
    from rfl] at *
  rw [hv]
  exact to_numeric_range v

/-- Witness for C6 at a raw dataset whose `Year Joined` holds a numeric
string and a non-numeric string. -/
theorem C6_year_coercion_total_witness :
    Wf (Frame.mk ["Year Joined"] [[Value.str "2020"], [Value.str "abc"]]) ∧
    ((∀ r ∈ (normalize (Frame.mk ["Year Joined"] [[Value.str "2020"], [Value.str "abc"]])).rows,
        (∃ n, getCell (normalize (Frame.mk ["Year Joined"]
            [[Value.str "2020"], [Value.str "abc"]])).cols r "Year Joined" = Value.num n) ∨
          getCell (normalize (Frame.mk ["Year Joined"]
            [[Value.str "2020"], [Value.str "abc"]])).cols r "Year Joined" = Value.null) ∧
    (∀ s n, parseInt? (pyStrip s) = some n → to_numeric (Value.str s) = Value.num n) ∧
    (∀ s, parseInt? (pyStrip s) = none → to_numeric (Value.str s) = Value.null)) :=
  ⟨by decide,
    C6_year_coercion_total (Frame.mk ["Year Joined"] [[Value.str "2020"], [Value.str "abc"]])
      (by decide)⟩

/-! ## The filter pipeline as a single filter -/

theorem catStage_eq (f : Frame) (c : String) (sel : List Value) :
    catStage f c sel
      = ⟨f.cols, f.rows.filter (fun r => sel.isEmpty || sel.contains (getCell f.cols r c))⟩ := by
  by_cases h : sel.isEmpty
  · simp [catStage, h]
  · simp [catStage, h, filterRows]

theorem rangeStage_eq (f : Frame) (yr : Option (Int × Int)) :
    rangeStage f yr
      = ⟨f.cols, f.rows.filter (fun r =>
          match yr with
          | none => true
          | some (lo, hi) => yearNotna f.cols r && yearBetween f.cols lo hi r)⟩ := by
  rcases yr with _ | ⟨lo, hi⟩
  · simp [rangeStage]
  · rfl

/-- The three stages of lines 84-94 amount to one filter by `passes`. -/
theorem filtered_df_eq (f : Frame) (spec : FilterSpec) :
    filtered_df f spec = ⟨f.cols, f.rows.filter (passes f.cols spec)⟩ := by
  rw [filtered_df, catStage_eq, catStage_eq, rangeStage_eq]
  simp only []
  congr 1
  rw [List.filter_filter, List.filter_filter]
  apply List.filter_congr
  intro r _
  simp only [passes]
  rcases spec.year_range with _ | ⟨lo, hi⟩ <;>
    simp [Bool.and_comm, Bool.and_assoc, Bool.and_left_comm]

/-! ## Claim C2 -/

/-- C2: with no active range the stage passes every record unchanged; with an
active range `[lo, hi]` the stage keeps exactly the rows, in order, whose
`Year Joined` is a present integer `n` with `lo ≤ n ≤ hi` — and any row whose
`Year Joined` is the missing sentinel fails the stage's predicate. -/
theorem C2_range_stage (f : Frame) (lo hi : Int) :
    rangeStage f none = f ∧
    (rangeStage f (some (lo, hi))).rows
      = f.rows.filter (fun r => yearNotna f.cols r && yearBetween f.cols lo hi r) ∧
    (∀ r, (yearNotna f.cols r && yearBetween f.cols lo hi r) = true ↔
        ∃ n, getCell f.cols r "Year Joined" = Value.num n ∧ lo ≤ n ∧ n ≤ hi) ∧
    (∀ r, getCell f.cols r "Year Joined" = Value.null →
        (yearNotna f.cols r && yearBetween f.cols lo hi r) = false) := by
  refine ⟨rfl, rfl, ?_, ?_⟩
  · intro r
    rcases h : getCell f.cols r "Year Joined" with s | n | _
    · simp [yearNotna, yearBetween, h]
    · simp [yearNotna, yearBetween, h]
    · simp [yearNotna, yearBetween, h]
  · intro r h
    simp [yearNotna, h]

/-! ## Claim C9 -/

/-- C9: the Filter Engine is idempotent: applying the same FilterSpec twice
returns the same frame (content and row order) as applying it once. -/
theorem C9_apply_idempotent (f : Frame) (spec : FilterSpec) :
    filtered_df (filtered_df f spec) spec = filtered_df f spec := by
  rw [filtered_df_eq f spec, filtered_df_eq]
  simp only [List.filter_filter]
  congr 1
  apply List.filter_congr
  intro r _
  simp

/-! ## Claim C1 (corrected) -/

/-- Counterexample to C1 as stated: a normalized dataset with years
{2020, missing}; the FilterSpec selects no firms and no offices and carries
the full-span range (2020, 2020), yet filtering drops the null-year row, so
the result is not the full dataset. -/
theorem C1_empty_spec_counterexample :
    yearsNonnull (normalize (Frame.mk ["Year Joined"] [[Value.num 2020], [Value.null]]))
        = [2020] ∧
    (normalize (Frame.mk ["Year Joined"] [[Value.num 2020], [Value.null]])).rows.length = 2 ∧
    (filtered_df (normalize (Frame.mk ["Year Joined"] [[Value.num 2020], [Value.null]]))
        (FilterSpec.mk [] [] (some (2020, 2020)))).rows.length = 1 ∧
    filtered_df (normalize (Frame.mk ["Year Joined"] [[Value.num 2020], [Value.null]]))
        (FilterSpec.mk [] [] (some (2020, 2020)))
      ≠ normalize (Frame.mk ["Year Joined"] [[Value.num 2020], [Value.null]]) := by
  refine ⟨by decide, by decide, by decide, by decide⟩

/-- C1 amended: an empty FilterSpec is the identity provided its range
constraint is absent, or every record's `Year Joined` is a present integer
within the (full-span) bounds; with a range present, rows whose `Year Joined`
is missing are dropped even at full span. -/
theorem C1_empty_spec_identity (f : Frame) (spec : FilterSpec)
    (hfirms : spec.selected_firms = []) (hoffices : spec.selected_offices = [])
    (hyr : spec.year_range = none ∨
      ∃ lo hi, spec.year_range = some (lo, hi) ∧
        ∀ r ∈ f.rows, ∃ n, getCell f.cols r "Year Joined" = Value.num n ∧ lo ≤ n ∧ n ≤ hi) :
    filtered_df f spec = f := by
  rw [filtered_df_eq]
  have hrows : f.rows.filter (passes f.cols spec) = f.rows := by
    apply List.filter_eq_self.mpr
    intro r hr
    rcases hyr with hnone | ⟨lo, hi, hsome, hall⟩
    · simp [passes, hfirms, hoffices, hnone]
    · rcases hall r hr with ⟨n, hn, hlo, hhi⟩
      simp [passes, hfirms, hoffices, hsome, yearNotna, yearBetween, hn, hlo, hhi]
  rw [hrows]

/-- Witness for the amended C1 at a dataset with all years present, under the
full-span range, and at a dataset filtered with no active range. -/
theorem C1_empty_spec_identity_witness :
    (FilterSpec.mk [] [] (some (2020, 2021)) : FilterSpec).selected_firms = [] ∧
    (FilterSpec.mk [] [] (some (2020, 2021)) : FilterSpec).selected_offices = [] ∧
    ((FilterSpec.mk [] [] (some (2020, 2021)) : FilterSpec).year_range = none ∨
      ∃ lo hi, (FilterSpec.mk [] [] (some (2020, 2021)) : FilterSpec).year_range = some (lo, hi) ∧
        ∀ r ∈ (Frame.mk ["Year Joined"] [[Value.num 2020], [Value.num 2021]]).rows,
          ∃ n, getCell (Frame.mk ["Year Joined"] [[Value.num 2020], [Value.num 2021]]).cols r
              "Year Joined" = Value.num n ∧ lo ≤ n ∧ n ≤ hi) ∧
    filtered_df (Frame.mk ["Year Joined"] [[Value.num 2020], [Value.num 2021]])
        (FilterSpec.mk [] [] (some (2020, 2021)))
      = Frame.mk ["Year Joined"] [[Value.num 2020], [Value.num 2021]] :=
  ⟨rfl, rfl,
    Or.inr ⟨2020, 2021, rfl, by
      intro r hr
      simp only [List.mem_cons, List.not_mem_nil, or_false] at hr
      rcases hr with h | h <;> subst h
      · exact ⟨2020, by decide⟩
      · exact ⟨2021, by decide⟩⟩,
    C1_empty_spec_identity (Frame.mk ["Year Joined"] [[Value.num 2020], [Value.num 2021]])
      (FilterSpec.mk [] [] (some (2020, 2021))) rfl rfl
      (Or.inr ⟨2020, 2021, rfl, by
        intro r hr
        simp only [List.mem_cons, List.not_mem_nil, or_false] at hr
        rcases hr with h | h <;> subst h
        · exact ⟨2020, by decide⟩
        · exact ⟨2021, by decide⟩⟩)⟩

/-! ## Claim C3 (corrected) -/

/-- Counterexample to C3 as stated: in a one-column view whose values are a
blank string and the missing sentinel — so every value is null or blank —
`can_plot_column` still answers true, because `astype(str)` renders the
missing sentinel as the non-blank string "nan". -/
theorem C3_plottable_counterexample :
    can_plot_column (Frame.mk ["X"] [[Value.str ""], [Value.null]]) "X" = true ∧
    (∀ v ∈ colValues (Frame.mk ["X"] [[Value.str ""], [Value.null]]) "X",
        v = Value.null ∨ pyStrip (pyStr v) = "") := by
  refine ⟨by decide, by decide⟩

/-- C3 amended: `can_plot_column` answers true exactly when the field exists
in the view's schema, at least one record holds a non-null value for it, and
at least one record's `astype(str)` rendering of it is non-blank after
trimming — where the missing sentinel renders as "nan", so a view mixing
null and blank values counts as plottable; a view in which every value is
null, or in which every value is a blank string and none is null, does not. -/
theorem C3_plottable_characterization (f : Frame) (c : String) :
    can_plot_column f c = true ↔
      c ∈ f.cols ∧ (∃ v ∈ colValues f c, v ≠ Value.null) ∧
        ∃ v ∈ colValues f c, pyStrip (pyStr v) ≠ "" := by
  rw [can_plot_column]
  simp [List.isEmpty_eq_false, List.filter_eq_nil_iff, and_assoc]

/-! ## Option Resolver lemmas -/

theorem mem_uniq {l : List Value} {a : Value} : a ∈ uniq l ↔ a ∈ l := by
  induction l with
  | nil => simp [uniq]
  | cons v t ih =>
    constructor
    · intro h
      rcases List.mem_cons.mp h with rfl | h2
      · exact List.mem_cons_self ..
      · exact List.mem_cons_of_mem _ (ih.mp (List.mem_filter.mp h2).1)
    · intro h
      rcases List.mem_cons.mp h with rfl | h2
      · exact List.mem_cons_self ..
      · by_cases he : a = v
        · subst he
          exact List.mem_cons_self ..
        · exact List.mem_cons_of_mem _
            (List.mem_filter.mpr ⟨ih.mpr h2, by simpa using he⟩)

theorem uniq_nodup (l : List Value) : (uniq l).Nodup := by
  induction l with
  | nil => simp [uniq]
  | cons v t ih =>
    rw [uniq]
    refine List.nodup_cons.mpr ⟨?_, ih.filter _⟩
    intro h
    have := (List.mem_filter.mp h).2
    simp at this

theorem pySorted_perm (l : List Value) : (pySorted l).Perm l :=
  List.perm_insertionSort vleR l

theorem pySorted_sorted (l : List Value) : (pySorted l).Pairwise vleR :=
  List.sorted_insertionSort vleR l

/-! ## Claim C7 -/

/-- C7: with the fallbacks the app actually supplies (none for offices,
"Unknown Firm" for firms), `unique_options` never returns duplicates, never a
missing value, never a blank-after-trim string, and its result is sorted
ascending by `vle` (on a homogeneous column, the value type's natural
ordering). -/
theorem C7_options_contract (series : List Value) (fallback : Option Value)
    (hfb : fallback = none ∨ fallback = some (Value.str "Unknown Firm")) :
    (unique_options series fallback).Nodup ∧
    (∀ v ∈ unique_options series fallback, v ≠ Value.null) ∧
    (∀ v ∈ unique_options series fallback, pyStrip (pyStr v) ≠ "") ∧
    (unique_options series fallback).Pairwise vleR := by
  simp only [unique_options]
  by_cases hempty :
      ((uniq (series.filter (fun v => v ≠ Value.null))).filter
        (fun v => pyStrip (pyStr v) ≠ "")).isEmpty
  · rw [if_pos hempty]
    rcases hfb with rfl | rfl
    · exact ⟨List.nodup_nil, by simp, by simp, List.Pairwise.nil⟩
    · refine ⟨List.nodup_singleton _, ?_, ?_, List.pairwise_singleton ..⟩
      · intro v hv
        rw [List.mem_singleton] at hv
        subst hv
        simp
      · intro v hv
        rw [List.mem_singleton] at hv
        subst hv
        decide
  · rw [if_neg hempty]
    have hperm := pySorted_perm
      ((uniq (series.filter (fun v => v ≠ Value.null))).filter (fun v => pyStrip (pyStr v) ≠ ""))
    refine ⟨?_, ?_, ?_, pySorted_sorted _⟩
    · exact (hperm.nodup_iff).mpr ((uniq_nodup _).filter _)
    · intro v hv
      have hvmem := hperm.mem_iff.mp hv
      have := mem_uniq.mp (List.mem_filter.mp hvmem).1
      have := (List.mem_filter.mp this).2
      simpa using this
    · intro v hv
      have hvmem := hperm.mem_iff.mp hv
      have := (List.mem_filter.mp hvmem).2
      simpa using this

/-- Witness for C7 on a series with duplicates, a missing value, a blank and
two out-of-order values, under the firm fallback. -/
theorem C7_options_contract_witness :
    ((some (Value.str "Unknown Firm") : Option Value) = none ∨
      (some (Value.str "Unknown Firm") : Option Value) = some (Value.str "Unknown Firm")) ∧
    ((unique_options [Value.str "b", Value.null, Value.str "a", Value.str "b", Value.str " "]
        (some (Value.str "Unknown Firm"))).Nodup ∧
    (∀ v ∈ unique_options [Value.str "b", Value.null, Value.str "a", Value.str "b", Value.str " "]
        (some (Value.str "Unknown Firm")), v ≠ Value.null) ∧
    (∀ v ∈ unique_options [Value.str "b", Value.null, Value.str "a", Value.str "b", Value.str " "]
        (some (Value.str "Unknown Firm")), pyStrip (pyStr v) ≠ "") ∧
    (unique_options [Value.str "b", Value.null, Value.str "a", Value.str "b", Value.str " "]
        (some (Value.str "Unknown Firm"))).Pairwise vleR) :=
  ⟨Or.inr rfl,
    C7_options_contract [Value.str "b", Value.null, Value.str "a", Value.str "b", Value.str " "]
      (some (Value.str "Unknown Firm")) (Or.inr rfl)⟩

/-! ## Claim C10 -/

/-- C10: when no value of the series qualifies (each is missing or blank
after trimming), `unique_options` with a supplied fallback returns exactly
the one-element list holding the fallback verbatim — unchecked for
blankness, unsorted, and regardless of whether it occurs in the data. -/
theorem C10_fallback_verbatim (series : List Value) (fb : Value)
    (h : ∀ v ∈ series, v = Value.null ∨ pyStrip (pyStr v) = "") :
    unique_options series (some fb) = [fb] := by
  simp only [unique_options]
  have hnil : ((uniq (series.filter (fun v => v ≠ Value.null))).filter
      (fun v => pyStrip (pyStr v) ≠ "")) = [] := by
    apply List.filter_eq_nil_iff.mpr
    intro v hv
    have hs := mem_uniq.mp hv
    have hmem := (List.mem_filter.mp hs).1
    have hnn := (List.mem_filter.mp hs).2
    rcases h v hmem with hnull | hblank
    · simp [hnull] at hnn
    · simp [hblank]
  rw [hnil]
  rfl

/-- Witness for C10: a series of one missing value and one blank string, with
a blank fallback that occurs nowhere in the data, returned verbatim. -/
theorem C10_fallback_verbatim_witness :
    (∀ v ∈ [Value.null, Value.str "  "], v = Value.null ∨ pyStrip (pyStr v) = "") ∧
    unique_options [Value.null, Value.str "  "] (some (Value.str "")) = [Value.str ""] :=
  ⟨by decide, C10_fallback_verbatim [Value.null, Value.str "  "] (Value.str "") (by decide)⟩

/-! ## Aggregation lemmas -/

theorem mem_uniqKeys {l : List (List Value)} {k : List Value} : k ∈ uniqKeys l ↔ k ∈ l := by
  induction l with
  | nil => simp [uniqKeys]
  | cons v t ih =>
    constructor
    · intro h
      rcases List.mem_cons.mp h with rfl | h2
      · exact List.mem_cons_self ..
      · exact List.mem_cons_of_mem _ (ih.mp (List.mem_filter.mp h2).1)
    · intro h
      rcases List.mem_cons.mp h with rfl | h2
      · exact List.mem_cons_self ..
      · by_cases he : k = v
        · subst he
          exact List.mem_cons_self ..
        · exact List.mem_cons_of_mem _
            (List.mem_filter.mpr ⟨ih.mpr h2, by simpa using he⟩)

theorem uniqKeys_nodup (l : List (List Value)) : (uniqKeys l).Nodup := by
  induction l with
  | nil => simp [uniqKeys]
  | cons v t ih =>
    rw [uniqKeys]
    refine List.nodup_cons.mpr ⟨?_, ih.filter _⟩
    intro h
    have := (List.mem_filter.mp h).2
    simp at this

theorem sortKeys_perm (l : List (List Value)) : (sortKeys l).Perm l :=
  List.perm_insertionSort vleListR l

theorem filter_comm {α : Type} (L : List α) (p q : α → Bool) :
    (L.filter p).filter q = (L.filter q).filter p := by
  rw [List.filter_filter, List.filter_filter]
  exact List.filter_congr (fun a _ => Bool.and_comm ..)

theorem length_filter_add_length_filter_not {α : Type} (L : List α) (p : α → Bool) :
    (L.filter p).length + (L.filter (fun x => !p x)).length = L.length := by
  induction L with
  | nil => simp
  | cons a t ih =>
    by_cases ha : p a <;> simp [List.filter_cons, ha] <;> omega

/-- Summing, over a duplicate-free list of keys covering every element's key,
the sizes of the per-key fibres of a list recovers the list's length. -/
theorem sum_filter_lengths {α β : Type} [DecidableEq β] (key : α → β) :
    ∀ (keys : List β) (L : List α), keys.Nodup → (∀ x ∈ L, key x ∈ keys) →
      (keys.map (fun k => (L.filter (fun x => key x = k)).length)).sum = L.length := by
  intro keys
  induction keys with
  | nil =>
    intro L _ hcov
    rcases L with _ | ⟨a, t⟩
    · simp
    · exact absurd (hcov a (List.mem_cons_self ..)) (by simp)
  | cons k ks ih =>
    intro L hnd hcov
    have hks : k ∉ ks := (List.nodup_cons.mp hnd).1
    have hnd' : ks.Nodup := (List.nodup_cons.mp hnd).2
    have hfibre : ∀ k2 ∈ ks,
        (L.filter (fun x => key x = k2)).length
          = ((L.filter (fun x => ¬ key x = k)).filter (fun x => key x = k2)).length := by
      intro k2 hk2
      have hne : k2 ≠ k := fun he => hks (he ▸ hk2)
      rw [List.filter_filter]
      congr 1
      apply List.filter_congr
      intro x _
      by_cases hx : key x = k2
      · simp [hx, hne]
      · simp [hx]
    have hcov' : ∀ x ∈ L.filter (fun x => ¬ key x = k), key x ∈ ks := by
      intro x hx
      rcases List.mem_filter.mp hx with ⟨hxL, hxk⟩
      rcases List.mem_cons.mp (hcov x hxL) with he | hin
      · exact absurd he (by simpa using hxk)
      · exact hin
    have hih := ih (L.filter (fun x => ¬ key x = k)) hnd' hcov'
    have hmap : (ks.map (fun k2 => (L.filter (fun x => key x = k2)).length)).sum
        = (ks.map (fun k2 =>
            ((L.filter (fun x => ¬ key x = k)).filter (fun x => key x = k2)).length)).sum := by
      congr 1
      exact List.map_congr_left hfibre
    have hsplit : (L.filter (fun x => key x = k)).length
        + (L.filter (fun x => ¬ key x = k)).length = L.length := by
      have h0 := length_filter_add_length_filter_not L (fun x => decide (key x = k))
      simpa using h0
    calc ((k :: ks).map (fun k2 => (L.filter (fun x => key x = k2)).length)).sum
        = (L.filter (fun x => key x = k)).length
          + (ks.map (fun k2 => (L.filter (fun x => key x = k2)).length)).sum := by simp
      _ = (L.filter (fun x => key x = k)).length
          + (L.filter (fun x => ¬ key x = k)).length := by rw [hmap, hih]
      _ = L.length := hsplit

/-! ## Claim C4 (corrected) -/

/-- Counterexample to C4 as stated: a normalized, unfiltered one-row view
whose `Name` cell is missing (the raw CSV had the column with an empty
entry).  Grouping by firm and counting `Name` yields the single group (A, 0),
so the counts sum to 0 while the view has 1 row: `groupby(...)["Name"]
.count()` counts only non-null `Name` cells. -/
theorem C4_counts_counterexample :
    filtered_df c4view (FilterSpec.mk [] [] none) = c4view ∧
    aggregate c4view ["Firm Name"] "Name" = [([Value.str "A"], 0)] ∧
    ((aggregate c4view ["Firm Name"] "Name").map Prod.snd).sum = 0 ∧
    c4view.rows.length = 1 := by
  refine ⟨by decide, by decide, by decide, by decide⟩

/-- C4 amended: for every view and 1-3 grouping fields, the aggregation's
group-key tuples are pairwise distinct, and the counts sum to the number of
rows whose group-key tuple is fully non-missing and whose count field
(`Name`) is non-missing — which is the full row count whenever those cells
are all present, but not in general. -/
theorem C4_aggregate_counts (f : Frame) (gcols : List String) (countCol : String)
    (h1 : 1 ≤ gcols.length) (h2 : gcols.length ≤ 3) :
    ((aggregate f gcols countCol).map Prod.fst).Nodup ∧
    ((aggregate f gcols countCol).map Prod.snd).sum
      = ((f.rows.filter (fun r => keyOk (groupKey f.cols gcols r))).filter
          (fun r => getCell f.cols r countCol ≠ Value.null)).length := by
  simp only [aggregate]
  constructor
  · rw [List.map_map]
    have : (Prod.fst ∘ fun k => (k,
        ((((f.rows.filter (fun r => keyOk (groupKey f.cols gcols r))).filter
            (fun r => groupKey f.cols gcols r = k)).filter
          (fun r => getCell f.cols r countCol ≠ Value.null)).length))) = id := rfl
    rw [this, List.map_id]
    exact ((sortKeys_perm _).nodup_iff).mpr
      (uniqKeys_nodup ((f.rows.filter (fun r => keyOk (groupKey f.cols gcols r))).map
        (groupKey f.cols gcols)))
  · rw [List.map_map]
    have hcomp : (Prod.snd ∘ fun k => (k,
        ((((f.rows.filter (fun r => keyOk (groupKey f.cols gcols r))).filter
            (fun r => groupKey f.cols gcols r = k)).filter
          (fun r => getCell f.cols r countCol ≠ Value.null)).length)))
        = fun k =>
          ((((f.rows.filter (fun r => keyOk (groupKey f.cols gcols r))).filter
              (fun r => getCell f.cols r countCol ≠ Value.null)).filter
            (fun r => groupKey f.cols gcols r = k)).length) := by
      funext k
      simp only [Function.comp]
      rw [filter_comm]
    rw [hcomp]
    apply sum_filter_lengths (groupKey f.cols gcols)
    · exact ((sortKeys_perm _).nodup_iff).mpr (uniqKeys_nodup _)
    · intro r hr
      rcases List.mem_filter.mp hr with ⟨hr1, _⟩
      have : groupKey f.cols gcols r ∈
          (f.rows.filter (fun r => keyOk (groupKey f.cols gcols r))).map
            (groupKey f.cols gcols) :=
        List.mem_map.mpr ⟨r, hr1, rfl⟩
      exact ((sortKeys_perm _).mem_iff).mpr (mem_uniqKeys.mpr this)

/-- Witness for the amended C4 on the counterexample view, grouped by the one
field `Firm Name`, counting `Name`. -/
theorem C4_aggregate_counts_witness :
    1 ≤ (["Firm Name"] : List String).length ∧ (["Firm Name"] : List String).length ≤ 3 ∧
    (((aggregate c4view ["Firm Name"] "Name").map Prod.fst).Nodup ∧
      ((aggregate c4view ["Firm Name"] "Name").map Prod.snd).sum
        = ((c4view.rows.filter (fun r => keyOk (groupKey c4view.cols ["Firm Name"] r))).filter
            (fun r => getCell c4view.cols r "Name" ≠ Value.null)).length) :=
  ⟨by decide, by decide,
    C4_aggregate_counts c4view ["Firm Name"] "Name" (by decide) (by decide)⟩

/-! ## Claim C8 (corrected) -/

/-- Counterexample to C8 as stated: on the 3-row scenario, filtering to firm
A yields 2 rows and grouping yields [(A, 2)] as claimed, but the reported
Avg. Year Joined KPI is the string "2020" — line 103 truncates the mean
through `int()` before display — not 2020.5. -/
theorem C8_scenario_counterexample :
    (filtered_df scenario_df scenario_spec).rows.length = 2 ∧
    team_size (filtered_df scenario_df scenario_spec) = [([Value.str "A"], 2)] ∧
    avg_year (filtered_df scenario_df scenario_spec) = "2020" ∧
    avg_year (filtered_df scenario_df scenario_spec) ≠ "2020.5" := by
  refine ⟨by decide, by decide, by decide, by decide⟩

/-- C8 amended: on the 3-row scenario, filtering to firm A yields exactly the
first 2 rows in original order; aggregating by firm yields [(A, 2)]; the mean
of non-null `Year Joined` over the filtered rows is 4041/2 = 2020.5, while
the KPI as reported is that mean truncated to "2020". -/
theorem C8_scenario :
    (filtered_df scenario_df scenario_spec).rows = scenario_df.rows.take 2 ∧
    team_size (filtered_df scenario_df scenario_spec) = [([Value.str "A"], 2)] ∧
    avg_year_val (filtered_df scenario_df scenario_spec) = some ((4041 : ℚ) / 2) ∧
    avg_year (filtered_df scenario_df scenario_spec) = "2020" := by
  refine ⟨by decide, by decide, ?_, by decide⟩
  have h : avg_year_val (filtered_df scenario_df scenario_spec) = some (mkRat 4041 2) := by
    decide
  rw [h, Rat.mkRat_eq_div]
  norm_num

end Dashboard
